import Mathlib

/-!
# SmartNewsReader — verification of the worker pipeline

A shallow embedding of the SmartNewsReader Cloudflare-worker source
(`src/worker.js` v10.7, `src/unnamed/part_000` v5.2.2, `src/unnamed/part_001`
v4.3) together with theorems about the extraction → prompting → model-output
repair → placeholder resolution → caching pipeline.

Modelling conventions:
* JS strings are modelled as `String` / `List Char`; all string algorithms
  used by the worker (`indexOf`, `lastIndexOf`, `substring`, `trim`,
  `split`, `startsWith`, regex-literal searches) are re-implemented here
  with JS semantics (`jsIndexOf` returns `-1`, `jsSubstring` swaps and
  clamps its arguments, `jsTrim` strips the JS whitespace class, …).
* Platform builtins (`fetch`, `HTMLRewriter`, `Date`, the KV binding,
  `JSON.parse`) are external collaborators; they are modelled at their
  interface: fetch outcomes and extraction results are inputs, `Date`
  parsing is an oracle parameter, `JSON.parse` is an executable JSON
  parser over a `Json` value type, and the KV store is a map from keys to
  the (JSON-decoded) summary arrays that the worker writes into it.
* Effectful code (`_getArticleData`, the feed/image handlers) is embedded
  as pure functions that also return an explicit effect record (was the
  model client invoked? what durable-cache write was issued?).
-/

namespace SmartNews

/-! ## JS string primitives -/

/-- The JavaScript whitespace class (`\s`, and the set stripped by
`String.prototype.trim`): ASCII whitespace plus the Unicode space
separators that can realistically appear in feed text. -/
def isJsWs (c : Char) : Bool :=
  c = ' ' || c = '\t' || c = '\n' || c = '\r' || c = '\x0b' || c = '\x0c' ||
  c = ' ' || c = '﻿' || c = '　'

/-- `trim()`: strip leading and trailing JS whitespace. -/
def jsTrim (l : List Char) : List Char :=
  ((l.dropWhile isJsWs).reverse.dropWhile isJsWs).reverse

/-- `String.prototype.split` with a single-character separator:
`"a\nb".split('\n') = ["a","b"]`, `"".split('\n') = [""]`. -/
def splitOnChar (sep : Char) : List Char → List (List Char)
  | [] => [[]]
  | c :: cs =>
    if c = sep then [] :: splitOnChar sep cs
    else
      match splitOnChar sep cs with
      | [] => [[c]]
      | h :: t => (c :: h) :: t

/-- Does `s` start with `pat`? (`String.prototype.startsWith`.) -/
def chStartsWith : List Char → List Char → Bool
  | _, [] => true
  | [], _ :: _ => false
  | c :: cs, p :: ps => c = p && chStartsWith cs ps

/-- First index `≥ i` at which `pat` occurs in `s` (index reported
relative to the original string; `i` is the index of the head of `s`). -/
def findSubFrom (pat : List Char) : List Char → Nat → Option Nat
  | [], i => if pat.isEmpty then some i else none
  | s@(_ :: cs), i => if chStartsWith s pat then some i else findSubFrom pat cs (i + 1)

/-- `String.prototype.indexOf` for a substring, as `Option Nat`. -/
def findSub (s pat : List Char) : Option Nat := findSubFrom pat s 0

/-- Substring containment test. -/
def containsSub (s pat : List Char) : Bool := (findSub s pat).isSome

/-- `String.prototype.indexOf` for a single character (JS result: `-1` when absent). -/
def jsIndexOf (s : List Char) (c : Char) : Int :=
  match findSub s [c] with
  | some i => (i : Int)
  | none => -1

/-- `String.prototype.lastIndexOf` for a single character. -/
def jsLastIndexOf (s : List Char) (c : Char) : Int :=
  match findSub s.reverse [c] with
  | some i => ((s.length - 1 - i : Nat) : Int)
  | none => -1

/-- `String.prototype.substring`: negative/overflowing indices are clamped
to `[0, length]` and the two endpoints are swapped when given in the wrong
order. -/
def jsSubstring (s : List Char) (a b : Int) : List Char :=
  let n : Int := (s.length : Int)
  let a' : Nat := (max 0 (min a n)).toNat
  let b' : Nat := (max 0 (min b n)).toNat
  (s.drop (min a' b')).take (max a' b' - min a' b')

/-- ASCII-only lowercasing, as used by case-insensitive (`/i`) regexes. -/
def asciiLower (c : Char) : Char :=
  if 'A' ≤ c ∧ c ≤ 'Z' then Char.ofNat (c.toNat + 32) else c

/-- Case-insensitive character comparison (ASCII case folding). -/
def ciEqChar (a b : Char) : Bool := asciiLower a = asciiLower b

/-- Does `s` start with `pat`, up to ASCII case? -/
def ciStartsWith : List Char → List Char → Bool
  | _, [] => true
  | [], _ :: _ => false
  | c :: cs, p :: ps => ciEqChar c p && ciStartsWith cs ps

/-- Case-insensitive substring containment (the effect of a `/i` regex
made of literal characters). -/
def ciContains : List Char → List Char → Bool
  | [], pat => pat.isEmpty
  | s@(_ :: cs), pat => ciStartsWith s pat || ciContains cs pat

/-! ## List-schema repair (worker.js v10.7, `_getArticleData` lines 192–194)

```js
summaryPoints = rawAIResponse.split('\n')
  .map(l => l.replace(/^[•\-\*\d\.\s]+/, '').trim())
  .filter(l => l.length > 5);
```
-/

/-- `l.replace(/^[•\-\*\d\.\s]+/, '')`: strip the leading run of
bullet/numbering marker characters (bullet glyph, dash, asterisk, digits,
dots, whitespace). -/
def stripMarker (l : List Char) : List Char :=
  l.dropWhile (fun c => c = '•' || c = '-' || c = '*' || c = '.' || c.isDigit || isJsWs c)

/-- The v10.7 list-schema repair: split the raw model text on line breaks,
strip the leading marker run and surrounding whitespace of each line, and
keep only lines whose length is strictly greater than 5. -/
def listRepair (raw : String) : List String :=
  (((splitOnChar '\n' raw.toList).map (fun l => jsTrim (stripMarker l))).filter
    (fun l => 5 < l.length)).map List.asString

/-! ## Object-schema repair (`cleanJson`) -/

/-- `cleanJson` of v4.3 (`src/unnamed/part_001` lines 164–169): slice from
the first `{` to the last `}` inclusive and trim; when either brace is
missing, return the whole trimmed text. -/
def cleanJson_v43 (t : String) : String :=
  let l := t.toList
  let start := jsIndexOf l '\x7b'
  let stop := jsLastIndexOf l '\x7d'
  if start ≠ -1 ∧ stop ≠ -1 then (jsTrim (jsSubstring l start (stop + 1))).asString
  else (jsTrim l).asString

/-- `cleanJson` of v5.2.2 (`src/unnamed/part_000` lines 179–183): slice
from the first `{` to one past the last `}` (JS `substring` semantics);
when no `{` exists, return the input unchanged. -/
def cleanJson_v52 (t : String) : String :=
  let l := t.toList
  let start := jsIndexOf l '\x7b'
  let stop := jsLastIndexOf l '\x7d'
  if start ≠ -1 then (jsSubstring l start (stop + 1)).asString else t

/-! ## JSON values and `JSON.parse`

The worker calls the platform builtin `JSON.parse` in two places: on
`cleanJson`'s candidate slice (v4.3/v5.2.2) and on the durable-cache value
(v10.7).  It is modelled by an executable recursive-descent parser over a
`Json` value type; numbers are kept in exact decimal form `m · 10^e`. -/

inductive Json where
  | null
  | bool (b : Bool)
  | num (m : Int) (e : Int)
  | str (s : String)
  | arr (elems : List Json)
  | obj (fields : List (String × Json))
deriving Repr, Inhabited

/-- First-match association lookup (JS `Map.get` / object property read). -/
def assocLookup {α : Type} : List (String × α) → String → Option α
  | [], _ => none
  | (k, v) :: rest, key => if k = key then some v else assocLookup rest key

/-- JSON whitespace (the only characters `JSON.parse` skips). -/
def isJsonWs (c : Char) : Bool :=
  c = ' ' || c = '\t' || c = '\n' || c = '\r'

def skipWs (l : List Char) : List Char := l.dropWhile isJsonWs

/-- Hexadecimal digit test. -/
def isHexDig (c : Char) : Bool :=
  c.isDigit || ('a' ≤ c && c ≤ 'f') || ('A' ≤ c && c ≤ 'F')

/-- Value of a hexadecimal digit. -/
def hexVal (c : Char) : Nat :=
  if c.isDigit then c.toNat - 48
  else if 'a' ≤ c ∧ c ≤ 'f' then c.toNat - 87
  else c.toNat - 55

/-- Decode the body of a JSON string literal (opening quote already
consumed), handling the standard escapes and `\uXXXX`. -/
def parseStrBody (acc : List Char) : List Char → Except String (String × List Char)
  | [] => .error "Unterminated string in JSON"
  | c :: cs =>
    if c = '"' then .ok (acc.reverse.asString, cs)
    else if c = '\\' then
      match cs with
      | [] => .error "Unterminated escape in JSON"
      | e :: cs' =>
        if e = '"' ∨ e = '\\' ∨ e = '/' then parseStrBody (e :: acc) cs'
        else if e = 'n' then parseStrBody ('\n' :: acc) cs'
        else if e = 't' then parseStrBody ('\t' :: acc) cs'
        else if e = 'r' then parseStrBody ('\r' :: acc) cs'
        else if e = 'b' then parseStrBody ('\x08' :: acc) cs'
        else if e = 'f' then parseStrBody ('\x0c' :: acc) cs'
        else if e = 'u' then
          match cs' with
          | h1 :: h2 :: h3 :: h4 :: cs'' =>
            if isHexDig h1 ∧ isHexDig h2 ∧ isHexDig h3 ∧ isHexDig h4 then
              let code := hexVal h1 * 4096 + hexVal h2 * 256 + hexVal h3 * 16 + hexVal h4
              parseStrBody (Char.ofNat code :: acc) cs''
            else .error "Bad unicode escape in JSON"
          | _ => .error "Bad unicode escape in JSON"
        else .error "Bad escape in JSON"
    else parseStrBody (c :: acc) cs

/-- Digits of a decimal run, most significant first, as a natural number. -/
def digitsToNat (ds : List Char) : Nat :=
  ds.foldl (fun n d => n * 10 + (d.toNat - 48)) 0

/-- Parse a JSON number at the head of `l` (grammar: `-? int frac? exp?`,
no leading zeros).  Returns the value as `(mantissa, exponent)`. -/
def parseNum (l : List Char) : Except String (Int × Int × List Char) := do
  let (neg, l) := match l with
    | '-' :: rest => (true, rest)
    | _ => (false, l)
  let intDigits := l.takeWhile Char.isDigit
  let l := l.dropWhile Char.isDigit
  if intDigits.isEmpty then throw "Expected digit in JSON number"
  else if intDigits.length > 1 ∧ intDigits.head? = some '0' then
    throw "Leading zero in JSON number"
  else
    let (fracDigits, l) := match l with
      | '.' :: rest =>
        (rest.takeWhile Char.isDigit, rest.dropWhile Char.isDigit)
      | _ => ([], l)
    let (expVal, l) ← match l with
      | e :: rest =>
        if e = 'e' ∨ e = 'E' then
          let (esign, rest) := match rest with
            | '+' :: r => ((1 : Int), r)
            | '-' :: r => ((-1 : Int), r)
            | _ => ((1 : Int), rest)
          let eDigits := rest.takeWhile Char.isDigit
          if eDigits.isEmpty then throw "Expected digit in JSON exponent"
          else pure (esign * (digitsToNat eDigits : Int), rest.dropWhile Char.isDigit)
        else pure ((0 : Int), l)
      | [] => pure ((0 : Int), l)
    let mantissa : Int := (digitsToNat (intDigits ++ fracDigits) : Int)
    .ok (if neg then -mantissa else mantissa, expVal - (fracDigits.length : Int), l)

mutual

/-- Parse one JSON value at the head of the input (`fuel`-indexed). -/
def parseVal : Nat → List Char → Except String (Json × List Char)
  | 0, _ => .error "JSON nesting too deep"
  | fuel + 1, l =>
    match skipWs l with
    | [] => .error "Unexpected end of JSON input"
    | c :: rest =>
      if c = 'n' then
        if chStartsWith rest ['u', 'l', 'l'] then .ok (.null, rest.drop 3)
        else .error "Unexpected token in JSON"
      else if c = 't' then
        if chStartsWith rest ['r', 'u', 'e'] then .ok (.bool true, rest.drop 3)
        else .error "Unexpected token in JSON"
      else if c = 'f' then
        if chStartsWith rest ['a', 'l', 's', 'e'] then .ok (.bool false, rest.drop 4)
        else .error "Unexpected token in JSON"
      else if c = '"' then do
        let (s, l') ← parseStrBody [] rest
        .ok (.str s, l')
      else if c = '[' then do
        let (xs, l') ← parseElems fuel (skipWs rest)
        .ok (.arr xs, l')
      else if c = '\x7b' then do
        let (fs, l') ← parseFields fuel (skipWs rest)
        .ok (.obj fs, l')
      else if c = '-' ∨ c.isDigit then do
        let (m, e, l') ← parseNum (c :: rest)
        .ok (.num m e, l')
      else .error "Unexpected token in JSON"

/-- Parse the elements of an array, starting right after `[` (leading
whitespace already skipped). -/
def parseElems : Nat → List Char → Except String (List Json × List Char)
  | 0, _ => .error "JSON nesting too deep"
  | fuel + 1, l =>
    match l with
    | ']' :: rest => .ok ([], rest)
    | _ => do
      let (x, l') ← parseVal fuel l
      match skipWs l' with
      | ',' :: rest => do
        let (xs, l'') ← parseElems fuel (skipWs rest)
        (match xs, skipWs rest with
          | _, _ => .ok (x :: xs, l''))
      | ']' :: rest => .ok ([x], rest)
      | _ => .error "Expected comma or bracket in JSON array"

/-- Parse the fields of an object, starting right after `{` (leading
whitespace already skipped). -/
def parseFields : Nat → List Char → Except String (List (String × Json) × List Char)
  | 0, _ => .error "JSON nesting too deep"
  | fuel + 1, l =>
    match l with
    | '\x7d' :: rest => .ok ([], rest)
    | '"' :: rest => do
      let (k, l') ← parseStrBody [] rest
      match skipWs l' with
      | ':' :: rest' => do
        let (v, l'') ← parseVal fuel (skipWs rest')
        match skipWs l'' with
        | ',' :: rest'' =>
          match skipWs rest'' with
          | '"' :: _ => do
            let (fs, l''') ← parseFields fuel (skipWs rest'')
            .ok ((k, v) :: fs, l''')
          | _ => .error "Expected property name in JSON object"
        | '\x7d' :: rest'' => .ok ([(k, v)], rest'')
        | _ => .error "Expected comma or brace in JSON object"
      | _ => .error "Expected colon in JSON object"
    | _ => .error "Expected property name in JSON object"

end

/-- The platform builtin `JSON.parse`: parse a complete JSON text,
rejecting trailing garbage. -/
def jsonParse (t : String) : Except String Json := do
  let l := t.toList
  let (v, rest) ← parseVal (l.length + 1) l
  if (skipWs rest).isEmpty then .ok v
  else .error "Unexpected non-whitespace character after JSON"

/-! ## Decimal rendering, `btoa` and the durable-cache key

`_getArticleData` (worker.js v10.7 lines 170–171) derives the durable
cache key from the canonical source URL:

```js
const b64 = btoa(targetUrl);
const kvKey = b64.substring(Math.max(0, b64.length - 64));
```
-/

/-- Decimal digits of `n`, most significant first (the rendering a JS
template literal applies to a number). -/
def natDecAux : Nat → Nat → List Char
  | 0, _ => []
  | fuel + 1, n =>
    if n < 10 then [Char.ofNat (48 + n)]
    else natDecAux fuel (n / 10) ++ [Char.ofNat (48 + n % 10)]

/-- Decimal rendering of a natural number. -/
def natDec (n : Nat) : String := (natDecAux (n + 1) n).asString

/-- The base64 alphabet. -/
def b64Alphabet : List Char :=
  "ABCDEFGHIJKLMNOPQRSTUVWXYZabcdefghijklmnopqrstuvwxyz0123456789+/".toList

/-- Base64 character for a 6-bit group. -/
def b64CharAt (n : Nat) : Char := b64Alphabet.getD n 'A'

/-- Base64-encode a byte sequence, `=`-padded. -/
def btoaAux : List Nat → List Char
  | [] => []
  | [a] => [b64CharAt (a / 4), b64CharAt ((a % 4) * 16), '=', '=']
  | [a, b] => [b64CharAt (a / 4), b64CharAt ((a % 4) * 16 + b / 16), b64CharAt ((b % 16) * 4), '=']
  | a :: b :: c :: rest =>
    b64CharAt (a / 4) :: b64CharAt ((a % 4) * 16 + b / 16) ::
      b64CharAt ((b % 16) * 4 + c / 64) :: b64CharAt (c % 64) :: btoaAux rest

/-- The platform builtin `btoa`: base64 of the code points of a Latin-1
string (the worker applies it to URLs, which are ASCII). -/
def btoa (s : String) : String := (btoaAux (s.toList.map Char.toNat)).asString

/-- The durable summary-cache key: the last 64 characters of
`btoa(targetUrl)` (the whole encoding when it is shorter). -/
def kvKeyOf (targetUrl : String) : String :=
  let b := (btoa targetUrl).toList
  ((b.drop (b.length - 64)).asString)

/-! ## JS exceptions and property access

The worker distinguishes three failure kinds: `TypeError` (reading a
property of `undefined`/`null`), `new Error(...)` thrown explicitly, and
`SyntaxError` from `JSON.parse` (the "parse error" kind of the spec). -/

inductive JsError where
  | jsTypeError (msg : String)
  | jsError (msg : String)
  | jsParseError (msg : String)
deriving Repr, DecidableEq

def JsError.message : JsError → String
  | .jsTypeError m => m
  | .jsError m => m
  | .jsParseError m => m

def JsError.isParse : JsError → Bool
  | .jsParseError _ => true
  | _ => false

/-- JS truthiness of a value (`none` models `undefined`). -/
def jsFalsy : Option Json → Bool
  | none => true
  | some .null => true
  | some (.bool b) => !b
  | some (.num m _) => m = 0
  | some (.str s) => s = ""
  | some (.arr _) => false
  | some (.obj _) => false

/-- Property read `v.k`: throws `TypeError` on `undefined`/`null`,
looks up object fields, and yields `undefined` on other primitives
(sufficient for the property names the worker reads). -/
def jsGetProp (v : Option Json) (k : String) : Except JsError (Option Json) :=
  match v with
  | none => .error (.jsTypeError ("Cannot read properties of undefined (reading " ++ k ++ ")"))
  | some .null => .error (.jsTypeError ("Cannot read properties of null (reading " ++ k ++ ")"))
  | some (.obj fs) => .ok (assocLookup fs k)
  | some _ => .ok none

/-- Index read `v[i]`: throws `TypeError` on `undefined`/`null`, yields
the element (or `undefined` past the end) on arrays. -/
def jsIndex (v : Option Json) (i : Nat) : Except JsError (Option Json) :=
  match v with
  | none => .error (.jsTypeError ("Cannot read properties of undefined (reading " ++ natDec i ++ ")"))
  | some .null => .error (.jsTypeError ("Cannot read properties of null (reading " ++ natDec i ++ ")"))
  | some (.arr xs) => .ok xs[i]?
  | some _ => .ok none

/-! ## The model client (`callAI`)

`resp` is the JSON body of the model endpoint response; the result is the
value of the JS return expression (which may be `undefined`). -/

/-- `callAI` of worker.js v10.7 (lines 211–219): no candidate guard —
`return json.candidates[0].content.parts[0].text;`, each property
access propagating its `TypeError`. -/
def callAI_v107 (resp : Json) : Except JsError (Option Json) :=
  match jsGetProp (some resp) "candidates" with
  | .error e => .error e
  | .ok c =>
    match jsIndex c 0 with
    | .error e => .error e
    | .ok c0 =>
      match jsGetProp c0 "content" with
      | .error e => .error e
      | .ok content =>
        match jsGetProp content "parts" with
        | .error e => .error e
        | .ok parts =>
          match jsIndex parts 0 with
          | .error e => .error e
          | .ok p0 => jsGetProp p0 "text"

/-- `callAI` of v4.3 (`src/unnamed/part_001` lines 126–145):
`if (!json.candidates || !json.candidates[0].content) throw new
Error("AI_BLOCK: No candidates returned.");` — note the second guard
operand itself dereferences `candidates[0]`, so an empty (truthy)
candidate array raises a `TypeError` before the explicit throw. -/
def callAI_v43 (resp : Json) : Except JsError (Option Json) :=
  match jsGetProp (some resp) "candidates" with
  | .error e => .error e
  | .ok c =>
    if jsFalsy c then .error (.jsError "AI_BLOCK: No candidates returned.")
    else
      match jsIndex c 0 with
      | .error e => .error e
      | .ok c0 =>
        match jsGetProp c0 "content" with
        | .error e => .error e
        | .ok content =>
          if jsFalsy content then .error (.jsError "AI_BLOCK: No candidates returned.")
          else
            match jsGetProp content "parts" with
            | .error e => .error e
            | .ok parts =>
              match jsIndex parts 0 with
              | .error e => .error e
              | .ok p0 => jsGetProp p0 "text"

/-- The model-endpoint response "contains no usable candidate content
block": the `candidates` field is absent, `null`, or an empty list. -/
def noUsableCandidates (resp : Json) : Prop :=
  match resp with
  | .obj fs =>
    assocLookup fs "candidates" = none ∨ assocLookup fs "candidates" = some .null ∨
      assocLookup fs "candidates" = some (.arr [])
  | _ => True

/-! ## `_getArticleData` (worker.js v10.7, lines 147–209)

The platform pieces are inputs: `fetchOk`/`fetchStatus` describe the
upstream fetch result, `page` is the record the `HTMLRewriter` pass
produced from the fetched body (fresh extraction), `kv` is the durable
`AI_SUMMARY` binding (values are the JSON-decoded summary arrays —
the worker only ever writes `JSON.stringify` of a string array), and
`ai` is the model client's behaviour on a prompt. -/

structure ExtractedPage where
  pageTitle : String
  socialImg : String
  firstBodyImg : String
  paragraphs : List String
deriving Repr, DecidableEq

structure Env where
  fetchStatus : Nat
  fetchOk : Bool
  page : ExtractedPage
  kv : String → Option (List String)
  ai : String → Except JsError String

/-- Effects of one `_getArticleData` run: the upstream fetch happened,
whether `callAI` was invoked, and the durable-cache write that was issued
(key, decoded value, TTL seconds), if any. -/
structure Effects where
  fetched : Bool
  aiCalled : Bool
  kvWrite : Option (String × List String × Nat)
deriving Repr, DecidableEq

/-- The record `_getArticleData` returns. -/
structure ArticleData where
  title : String
  paragraphs : List String
  image : String
  summary_points : List String
  debugPrompt : String
  debugRaw : String
deriving Repr, DecidableEq

/-- `pageTitle.trim() || "News Article"`. -/
def cleanTitleOf (page : ExtractedPage) : String :=
  let t := (jsTrim page.pageTitle.toList).asString
  if t = "" then "News Article" else t

/-- `socialImg || firstBodyImg`. -/
def imageOf (page : ExtractedPage) : String :=
  if page.socialImg = "" then page.firstBodyImg else page.socialImg

/-- The v10.7 prompt (lines 182–189), with the paragraph payload
truncated by `substring(0, 35000)`. -/
def buildPrompt (cleanTitle : String) (paragraphs : List String) : String :=
  "[SYSTEM]: You are a news analyst.\n[TASK]: Summarize text into 3-5 concise bullet points in Simplified Chinese (简体中文).\n[STRICT FORMAT]: Return ONLY the bullet points, one per line. \n- Do NOT use JSON. Do NOT use markdown (no * or -).\n- Do NOT use any introductory text. Just the summary lines.\n\n[TITLE]: " ++
    cleanTitle ++ "\n[DATA]: " ++
    (jsSubstring (String.intercalate "\n" paragraphs).toList 0 35000).asString

/-- `_getArticleData` of worker.js v10.7.  Throws on a non-success fetch;
always re-extracts (title/image/paragraphs come from `env.page`); reads
the durable cache before the model call; writes it (TTL 1209600 s) only
when the repaired summary is non-empty. -/
def getArticleData (targetUrl : String) (env : Env) :
    Except JsError ArticleData × Effects :=
  if env.fetchOk = false then
    (.error (.jsError ("Fetch Exception: HTTP " ++ natDec env.fetchStatus)),
      ⟨true, false, none⟩)
  else
    let cleanTitle := cleanTitleOf env.page
    let kvKey := kvKeyOf targetUrl
    match env.kv kvKey with
    | some cachedSum =>
      (.ok { title := cleanTitle, paragraphs := env.page.paragraphs,
             image := imageOf env.page, summary_points := cachedSum,
             debugPrompt := "", debugRaw := "" },
        ⟨true, false, none⟩)
    | none =>
      let currentPrompt := buildPrompt cleanTitle env.page.paragraphs
      match env.ai currentPrompt with
      | .error e => (.error e, ⟨true, true, none⟩)
      | .ok rawAIResponse =>
        let summaryPoints := listRepair rawAIResponse
        (.ok { title := cleanTitle, paragraphs := env.page.paragraphs,
               image := imageOf env.page, summary_points := summaryPoints,
               debugPrompt := currentPrompt, debugRaw := rawAIResponse },
          ⟨true, true,
            if summaryPoints.length > 0 then some (kvKey, summaryPoints, 1209600)
            else none⟩)

/-- Did the computation succeed (no exception propagated)? -/
def exceptOk {ε α : Type} : Except ε α → Bool
  | .ok _ => true
  | .error _ => false

/-- Outcome of the `/article/` route (on an edge-cache miss): either the
rendered page or the failure reporter's diagnostic page. -/
inductive ArticleResponse where
  | page (data : ArticleData) (cacheControl : String)
  | debugPage (errMsg : String) (prompt : String) (raw : String)
deriving Repr, DecidableEq

/-- `handleArticle` of worker.js v10.7 after an edge-cache miss: render
on success, otherwise the failure reporter page (whose prompt/raw context
is the pre-initialised `debugInfo = { prompt: "", raw: "" }`, since the
exception aborts `_getArticleData` before `data.debug` is read). -/
def handleArticle (targetUrl : String) (env : Env) : ArticleResponse × Effects :=
  match getArticleData targetUrl env with
  | (.ok data, eff) => (.page data "public, s-maxage=604800", eff)
  | (.error e, eff) => (.debugPage e.message "" "", eff)

/-! ## The image proxy -/

/-- Upstream image fetch result (status and response headers). -/
structure UpstreamResponse where
  status : Nat
  headers : List (String × String)
deriving Repr, DecidableEq

/-- Case-insensitive header-name equality (the `Headers` builtin). -/
def headerNameEq (a b : String) : Bool :=
  a.toList.map asciiLower = b.toList.map asciiLower

def headersHas (hs : List (String × String)) (name : String) : Bool :=
  hs.any fun h => headerNameEq h.1 name

/-- `Headers.set`: replace the value of an existing header or append. -/
def headersSet (hs : List (String × String)) (name value : String) :
    List (String × String) :=
  if headersHas hs name then
    hs.map fun h => if headerNameEq h.1 name then (h.1, value) else h
  else hs ++ [(name, value)]

/-- `Headers.delete`. -/
def headersDelete (hs : List (String × String)) (name : String) :
    List (String × String) :=
  hs.filter fun h => !headerNameEq h.1 name

/-- `Headers.get`: the value of the first header with that name. -/
def headersGet (hs : List (String × String)) (name : String) : Option String :=
  (hs.find? fun h => headerNameEq h.1 name).map Prod.snd

/-- A proxied response: status, headers, and whether a body is attached. -/
structure ProxyResponse where
  status : Nat
  headers : List (String × String)
  hasBody : Bool
deriving Repr, DecidableEq

/-- `handleImageProxy` of worker.js v10.7 (lines 221–230): copy upstream
headers, set the immutable cache directive only on status 200, and map a
failing fetch to a bare 404.  (This revision does not delete
`Set-Cookie`.) -/
def handleImageProxy_v107 (upstream : Except Unit UpstreamResponse) : ProxyResponse :=
  match upstream with
  | .error _ => { status := 404, headers := [], hasBody := false }
  | .ok r =>
    { status := r.status,
      headers :=
        if r.status = 200 then
          headersSet r.headers "Cache-Control" "public, max-age=31536000, immutable"
        else r.headers,
      hasBody := true }

/-- `handleImageProxy` of v5.2.2 (`src/unnamed/part_000` lines 168–177):
same, but `Set-Cookie` is always deleted. -/
def handleImageProxy_v52 (upstream : Except Unit UpstreamResponse) : ProxyResponse :=
  match upstream with
  | .error _ => { status := 404, headers := [], hasBody := false }
  | .ok r =>
    { status := r.status,
      headers :=
        headersDelete
          (if r.status = 200 then
            headersSet r.headers "Cache-Control" "public, max-age=31536000, immutable"
          else r.headers) "Set-Cookie",
      hasBody := true }

/-! ## The RSS engine (worker.js v10.7, `parseRSS` lines 56–95 and
`handleUnifiedFeed` lines 31–54)

The regex literals of `parseRSS` are embedded with JS regex semantics:
* `/<item>[\s\S]*?<\/item>/g` — repeatedly take the earliest `<item>`
  with a matching later `</item>`, minimal extent, continuing after each
  match (`itemsOf`);
* `/pre([\s\S]*?)post/` — the match starts at the earliest occurrence of
  `pre` that has `post` somewhere after it, and the lazy capture ends at
  the first such `post` (`matchBetween`; if the first `pre` has no later
  `post`, no later one does either);
* `/<tag[^>]*attr="([\s\S]*?)"/` — at each occurrence of `<tag` the
  greedy `[^>]*` backtracks from the longest `>`-free run, so the
  rightmost `attr="` inside that run wins (`matchAttr`);
* the `/i` category test is a case-insensitive substring search for the
  four expansions of its two optional groups (`shenYunTest`). -/

structure Source where
  name : String
  url : String
  color : String
  domain : String
deriving Repr, DecidableEq

structure NewsItem where
  title : String
  link : String
  image : String
  source : String
  color : String
  timestamp : Nat
deriving Repr, DecidableEq

/-- All matches of `/<item>[\s\S]*?<\/item>/g`. -/
def itemsOfAux : Nat → List Char → List (List Char)
  | 0, _ => []
  | fuel + 1, s =>
    match findSub s ("<item>".toList) with
    | none => []
    | some i =>
      let afterOpen := s.drop (i + 6)
      match findSub afterOpen ("</item>".toList) with
      | none => []
      | some j => ((s.drop i).take (6 + j + 7)) :: itemsOfAux fuel (afterOpen.drop (j + 7))

def itemsOf (xml : List Char) : List (List Char) := itemsOfAux (xml.length + 1) xml

/-- First match of `/pre([\s\S]*?)post/`: capture group 1. -/
def matchBetween (s pre post : List Char) : Option (List Char) :=
  match findSub s pre with
  | none => none
  | some i =>
    let rest := s.drop (i + pre.length)
    match findSub rest post with
    | none => none
    | some j => some (rest.take j)

/-- `(match)?.[1] || dflt`: the capture, with `dflt` both when the regex
did not match and when the captured group is the empty string (falsy). -/
def captureOr (dflt : String) (c : Option (List Char)) : String :=
  match c with
  | some cap => if cap.isEmpty then dflt else cap.asString
  | none => dflt

/-- Lazy capture up to the next `"`. -/
def takeUntilQuote (l : List Char) : Option (List Char) :=
  match findSub l ['"'] with
  | none => none
  | some j => some (l.take j)

/-- Backtracking of `[^>]*attr="` at one tag occurrence: try the
rightmost starting offset first. -/
def tryAttrK (rest attr : List Char) : Nat → Option (List Char)
  | 0 =>
    if chStartsWith rest attr then takeUntilQuote (rest.drop attr.length) else none
  | k + 1 =>
    let cand :=
      if chStartsWith (rest.drop (k + 1)) attr then
        takeUntilQuote (rest.drop (k + 1 + attr.length))
      else none
    match cand with
    | some cap => some cap
    | none => tryAttrK rest attr k

/-- First match of `/<tag[^>]*attr="([\s\S]*?)"/`: capture group 1. -/
def matchAttrAux : Nat → List Char → List Char → List Char → Option (List Char)
  | 0, _, _, _ => none
  | fuel + 1, s, tagLit, attr =>
    match findSub s tagLit with
    | none => none
    | some i =>
      let rest := s.drop (i + tagLit.length)
      let run := rest.takeWhile (fun c => c ≠ '>')
      match tryAttrK rest attr run.length with
      | some cap => some cap
      | none => matchAttrAux fuel (s.drop (i + 1)) tagLit attr

def matchAttr (s tagLit attr : List Char) : Option (List Char) :=
  matchAttrAux (s.length + 1) s tagLit attr

/-- The `mediaMatch` chain of `parseRSS` (thumbnail, content, enclosure,
then a plain `img`). -/
def mediaMatchOf (item : List Char) : Option (List Char) :=
  (matchAttr item ("<media:thumbnail".toList) ("url=\"".toList)).orElse fun _ =>
    (matchAttr item ("<media:content".toList) ("url=\"".toList)).orElse fun _ =>
      (matchAttr item ("<enclosure".toList) ("url=\"".toList)).orElse fun _ =>
        matchAttr item ("<img".toList) ("src=\"".toList)

/-- `src.replace(/^https?:\/\//, '')`. -/
def stripScheme (s : String) : String :=
  let l := s.toList
  if chStartsWith l ("https://".toList) then (l.drop 8).asString
  else if chStartsWith l ("http://".toList) then (l.drop 7).asString
  else s

/-- The four literal expansions of
`/<category>(?:<!\[CDATA\[)?神韵(?:\]\]>)?<\/category>/i`. -/
def shenYunVariants : List (List Char) :=
  [("<category>神韵</category>".toList),
   ("<category><![CDATA[神韵</category>".toList),
   ("<category>神韵]]></category>".toList),
   ("<category><![CDATA[神韵]]></category>".toList)]

/-- The 神韵-category test applied to 大纪元 (epochtimes) items. -/
def shenYunTest (item : List Char) : Bool :=
  shenYunVariants.any fun v => ciContains item v

/-- The `new URL` builtin, modelled at its interface for the absolute
http(s) URLs that appear in feed `<link>` elements (no userinfo):
lower-cased hostname without the port, pathname defaulting to `/`. -/
structure JsUrl where
  hostname : String
  pathname : String
deriving Repr, DecidableEq

def parseHttpUrl (s : String) : Option JsUrl :=
  let l := s.toList
  let afterScheme :=
    if chStartsWith l ("https://".toList) then some (l.drop 8)
    else if chStartsWith l ("http://".toList) then some (l.drop 7)
    else none
  match afterScheme with
  | none => none
  | some rest =>
    let hostPort := rest.takeWhile fun c => ¬(c = '/' ∨ c = '?' ∨ c = '#')
    if hostPort.isEmpty then none
    else
      let host := hostPort.takeWhile fun c => c ≠ ':'
      let tail := rest.drop hostPort.length
      let path := tail.takeWhile fun c => ¬(c = '?' ∨ c = '#')
      some { hostname := (host.map asciiLower).asString,
             pathname := if path.isEmpty then "/" else path.asString }

def chEndsWith (s pat : List Char) : Bool := chStartsWith s.reverse pat.reverse

/-- The title extraction:
`(CDATA-title match || plain-title match)?.[1] || "No Title"`. -/
def titleOfItem (item : List Char) : String :=
  captureOr "No Title"
    ((matchBetween item ("<title><![CDATA[".toList) ("]]></title>".toList)).orElse
      fun _ => matchBetween item ("<title>".toList) ("</title>".toList))

/-- One news record of `parseRSS` v10.7 (the loop body after the
category filter).  `dateMs` is the `Date` builtin: milliseconds since
epoch of a `pubDate` string, with `0` standing for `NaN` (the sort
comparator collapses `NaN` to `0` via `|| 0` anyway). -/
def mkNewsItem (dateMs : String → Nat) (source : Source) (item : List Char) : NewsItem :=
  let title := titleOfItem item
  let link := captureOr "" (matchBetween item ("<link>".toList) ("</link>".toList))
  let pubDate := captureOr "" (matchBetween item ("<pubDate>".toList) ("</pubDate>".toList))
  let articlePath :=
    if link = "" then "#"
    else
      match parseHttpUrl (jsTrim link.toList).asString with
      | none => "#"
      | some u =>
        let path :=
          if containsSub u.hostname.toList ("bbc.com".toList) ∧
              chEndsWith u.pathname.toList ("/trad".toList) then
            ((u.pathname.toList.take (u.pathname.toList.length - 5)) ++ "/simp".toList).asString
          else u.pathname
        "/article/" ++ u.hostname ++ path
  { title := title, link := articlePath,
    image :=
      match mediaMatchOf item with
      | some cap => "/image/" ++ stripScheme cap.asString
      | none => "",
    source := source.name, color := source.color,
    timestamp := if pubDate = "" then 0 else dateMs pubDate }

/-- The `for (const item of items)` loop of `parseRSS` v10.7, with the
`continue` for 神韵-categorised epochtimes items. -/
def parseRSSLoop (dateMs : String → Nat) (source : Source) : List (List Char) → List NewsItem
  | [] => []
  | item :: rest =>
    if source.domain = "feed.epochtimes.com" ∧ shenYunTest item then
      parseRSSLoop dateMs source rest
    else mkNewsItem dateMs source item :: parseRSSLoop dateMs source rest

/-- `parseRSS` of worker.js v10.7. -/
def parseRSS (dateMs : String → Nat) (xml : String) (source : Source) : List NewsItem :=
  parseRSSLoop dateMs source (itemsOf xml.toList)

/-- The sort order of `(a, b) => (b.timestamp || 0) - (a.timestamp || 0)`:
`a` sorts no later than `b` iff `a.timestamp ≥ b.timestamp`. -/
def tsLe (a b : NewsItem) : Bool := b.timestamp ≤ a.timestamp

/-- One source's contribution to the unified feed: the `try`/`catch`
around fetch+parse maps any failure (`none`) to `[]`. -/
def feedContribution (dateMs : String → Nat) (p : Source × Option String) : List NewsItem :=
  match p.2 with
  | none => []
  | some xml => parseRSS dateMs xml p.1

/-- `handleUnifiedFeed` of worker.js v10.7, up to rendering: fan out over
the sources, join, flatten and sort by descending timestamp (a stable
sort, as JS `Array.prototype.sort` is). -/
def handleUnifiedFeedNews (dateMs : String → Nat)
    (outcomes : List (Source × Option String)) : List NewsItem :=
  ((outcomes.map (feedContribution dateMs)).flatten).mergeSort tsLe

/-! ## Placeholder table and resolver (v4.3, `src/unnamed/part_001`)

`handleArticle` (lines 88–124) builds `urlMap` while streaming `img`
elements — `I1`, `I2`, … mapped to `/image/`-rewritten URLs — and
`mapBack` (lines 157–162) resolves the validated model output against
it. -/

/-- One `img` element seen by the `HTMLRewriter` pass: its `src` and
`data-src` attributes (`none` = attribute absent). -/
structure ImgEl where
  src : Option String
  dataSrc : Option String
deriving Repr, DecidableEq

/-- `el.getAttribute("src") || el.getAttribute("data-src")`, followed by
the `if (src)` truthiness guard: the recorded source, if any. -/
def imgSrcOf (el : ImgEl) : Option String :=
  let src :=
    match el.src with
    | some s => if s = "" then el.dataSrc else some s
    | none => el.dataSrc
  match src with
  | some s => if s = "" then none else some s
  | none => none

/-- The `urlMap` built by the `img` handler, starting at counter value
`c` (`imgCounter` starts at 1): token `` `I${imgCounter++}` `` mapped to
`` `/image/${src.replace(/^https?:\/\//, '')}` ``. -/
def buildUrlMapAux (c : Nat) : List ImgEl → List (String × String)
  | [] => []
  | el :: rest =>
    match imgSrcOf el with
    | some s => ("I" ++ natDec c, "/image/" ++ stripScheme s) :: buildUrlMapAux (c + 1) rest
    | none => buildUrlMapAux c rest

/-- The placeholder table of one extraction pass. -/
def buildUrlMap (els : List ImgEl) : List (String × String) := buildUrlMapAux 1 els

/-- `mapBack` of v4.3: replace every string scalar that is a key of the
table by its recorded URL; recurse into arrays and objects; leave
everything else unchanged. -/
def mapBack (m : List (String × String)) : Json → Json
  | .str s =>
    match assocLookup m s with
    | some u => .str u
    | none => .str s
  | .arr xs => .arr (xs.attach.map fun x => mapBack m x.1)
  | .obj fs => .obj (fs.attach.map fun f => (f.1.1, mapBack m f.1.2))
  | .null => .null
  | .bool b => .bool b
  | .num a e => .num a e
termination_by j => sizeOf j
decreasing_by
  · have := List.sizeOf_lt_of_mem x.2
    simp only [Json.arr.sizeOf_spec]
    omega
  · have h1 := List.sizeOf_lt_of_mem f.2
    have h2 : sizeOf f.1.2 < sizeOf f.1 := by
      obtain ⟨a, b⟩ := f.1
      simp [Prod.mk.sizeOf_spec]
    simp only [Json.obj.sizeOf_spec]
    omega

/-- A path into a JSON tree: array indices and object keys. -/
inductive Step where
  | idx (i : Nat)
  | key (k : String)
deriving Repr, DecidableEq

/-- The value at a path (`none` when the path does not exist). -/
def Json.get? : Json → List Step → Option Json
  | j, [] => some j
  | .arr xs, .idx i :: p =>
    match xs[i]? with
    | some x => x.get? p
    | none => none
  | .obj fs, .key k :: p =>
    match assocLookup fs k with
    | some v => v.get? p
    | none => none
  | _, _ => none

/-- The shape of a JSON node with string contents erased: "structurally
identical" values agree on `nodeKind` at every path. -/
inductive NodeKind where
  | knull
  | kbool (b : Bool)
  | knum (m e : Int)
  | kstr
  | karr (length : Nat)
  | kobj (keys : List String)
deriving Repr, DecidableEq

def Json.nodeKind : Json → NodeKind
  | .null => .knull
  | .bool b => .kbool b
  | .num m e => .knum m e
  | .str _ => .kstr
  | .arr xs => .karr xs.length
  | .obj fs => .kobj (fs.map Prod.fst)

/-- What the resolver does to one string scalar. -/
def resolveStr (m : List (String × String)) (s : String) : String :=
  match assocLookup m s with
  | some u => u
  | none => s

/-- Non-string scalars (`null`, booleans, numbers): the values the
resolver must pass through unchanged. -/
def Json.scalarNonString : Json → Bool
  | .null => true
  | .bool _ => true
  | .num _ _ => true
  | _ => false

/-! ## Demonstration inputs (used by witnesses and counterexamples) -/

/-- The raw model text of the spec's list-schema example. -/
def listExample : String := "- first point\n* second point\n1. third\nshort"

/-- The raw model text of the spec's object-schema example. -/
def objExample : String := "noise \x7b\"summary\":[\"a\",\"b\"]\x7d trailing"

/-- A demonstration extraction with pathological fields: whitespace-only
title, no images, zero paragraphs. -/
def emptyPage : ExtractedPage :=
  { pageTitle := "  ", socialImg := "", firstBodyImg := "", paragraphs := [] }

/-- A demonstration extraction with ordinary fields. -/
def demoPage : ExtractedPage :=
  { pageTitle := " Demo Title ", socialImg := "https://cdn.demo/og.png",
    firstBodyImg := "https://cdn.demo/body.png", paragraphs := ["first paragraph", "second paragraph"] }

/-- A demonstration article URL. -/
def demoUrl : String := "https://news.demo/world/story"

/-- Environment with a durable-cache hit for `demoUrl`. -/
def envHit : Env :=
  { fetchStatus := 200, fetchOk := true, page := demoPage,
    kv := fun k => if k = kvKeyOf demoUrl then some ["cached point one"] else none,
    ai := fun _ => .error (.jsError "model must not be called") }

/-- Environment with a durable-cache miss and a well-behaved model. -/
def envMiss : Env :=
  { fetchStatus := 200, fetchOk := true, page := demoPage,
    kv := fun _ => none,
    ai := fun _ => .ok "- alpha point one\n* beta point two" }

/-- Environment with a durable-cache miss and a model that emits only
degenerate (too short) lines. -/
def envShort : Env :=
  { fetchStatus := 200, fetchOk := true, page := demoPage,
    kv := fun _ => none,
    ai := fun _ => .ok "- ok\n* no" }

/-- Environment whose upstream fetch succeeded but whose extraction
recovered zero paragraphs. -/
def envNoParas : Env :=
  { fetchStatus := 200, fetchOk := true, page := emptyPage,
    kv := fun _ => none,
    ai := fun _ => .ok "- alpha point one\n* beta point two" }

/-- Environment whose upstream fetch returned HTTP 503. -/
def envBadFetch : Env :=
  { fetchStatus := 503, fetchOk := false, page := demoPage,
    kv := fun _ => none,
    ai := fun _ => .ok "- alpha point one" }

/-- A model-endpoint response whose candidate list is empty (safety
block). -/
def respNoCand : Json := Json.obj [("candidates", .arr []), ("modelVersion", .str "demo")]

/-- The 大纪元 source of worker.js v10.7. -/
def epochSource : Source :=
  { name := "大纪元", url := "https://feed.epochtimes.com/gb/feed",
    color := "text-blue-600", domain := "feed.epochtimes.com" }

/-- The BBC source of worker.js v10.7. -/
def bbcSource : Source :=
  { name := "BBC", url := "https://feeds.bbci.co.uk/zhongwen/trad/rss.xml",
    color := "text-orange-700", domain := "feeds.bbci.co.uk" }

/-- A feed with one 神韵-categorised item and one ordinary item. -/
def demoXml : String :=
  "<item><title><![CDATA[Show A]]></title><link>https://www.epochtimes.com/gb/a.html</link><category><![CDATA[神韵]]></category><pubDate>D1</pubDate></item><item><title>Story B</title><link>https://www.epochtimes.com/gb/b.html</link><pubDate>D2</pubDate></item>"

/-- A demonstration `Date` oracle. -/
def demoDateMs : String → Nat := fun s => if s = "D1" then 100 else if s = "D2" then 200 else 0

/-- A demonstration upstream image response carrying a cookie. -/
def demoUpstream : UpstreamResponse :=
  { status := 200, headers := [("Set-Cookie", "sid=1"), ("Content-Type", "image/png")] }

/-- A demonstration `img`-element stream (the second element lacks a
usable source and is skipped by the `if (src)` guard). -/
def demoEls : List ImgEl :=
  [{ src := some "https://pic.demo/1.png", dataSrc := none },
   { src := some "", dataSrc := none },
   { src := none, dataSrc := some "https://pic.demo/2.png" }]

/-- A demonstration validated model output for the resolver. -/
def demoJson : Json :=
  Json.obj [("image_url", .str "I1"),
            ("title", .str "标题"),
            ("summary_points", .arr [.str "要点一", .str "I2"]),
            ("n", .num 3 0)]

/-! ## Supporting lemmas: decimal rendering is injective -/

theorem digitsToNat_append (ds : List Char) (d : Char) :
    digitsToNat (ds ++ [d]) = 10 * digitsToNat ds + (d.toNat - 48) := by
  simp [digitsToNat, List.foldl_append]
  omega

theorem charVal_ofNat_digit (n : Nat) (h : n < 10) :
    (Char.ofNat (48 + n)).toNat - 48 = n := by
  interval_cases n <;> decide

theorem digitsToNat_natDecAux (fuel : Nat) : ∀ n, n < fuel →
    digitsToNat (natDecAux fuel n) = n := by
  induction fuel with
  | zero => omega
  | succ fuel ih =>
    intro n hn
    rw [natDecAux]
    by_cases h10 : n < 10
    · simp only [h10, if_true]
      have := charVal_ofNat_digit n h10
      simp [digitsToNat]
      omega
    · simp only [h10, if_false]
      rw [digitsToNat_append]
      have hdiv : n / 10 < fuel := by
        have h1 : n / 10 < n := Nat.div_lt_self (by omega) (by omega)
        omega
      rw [ih (n / 10) hdiv]
      have := charVal_ofNat_digit (n % 10) (Nat.mod_lt n (by omega))
      omega

theorem natDec_injective {a b : Nat} (h : natDec a = natDec b) : a = b := by
  have ha := digitsToNat_natDecAux (a + 1) a (by omega)
  have hb := digitsToNat_natDecAux (b + 1) b (by omega)
  have hd : natDecAux (a + 1) a = natDecAux (b + 1) b := by
    have := congrArg String.data h
    simpa [natDec, List.asString] using this
  rw [hd, hb] at ha
  omega

theorem token_injective {a b : Nat} (h : "I" ++ natDec a = "I" ++ natDec b) : a = b := by
  apply natDec_injective
  have hd := congrArg String.data h
  simp only [String.data_append] at hd
  exact String.ext (List.cons_injective hd)

/-! ## Supporting lemmas: substring search -/

theorem chStartsWith_length : ∀ {s pat : List Char}, chStartsWith s pat = true →
    pat.length ≤ s.length := by
  intro s
  induction s with
  | nil => intro pat h; cases pat with
    | nil => simp
    | cons p ps => simp [chStartsWith] at h
  | cons c cs ih => intro pat h; cases pat with
    | nil => simp
    | cons p ps =>
      simp only [chStartsWith, Bool.and_eq_true] at h
      have := ih h.2
      simp only [List.length_cons]
      omega

theorem findSubFrom_bound {pat : List Char} : ∀ {s : List Char} {k i : Nat},
    findSubFrom pat s k = some i → k ≤ i ∧ i - k + pat.length ≤ s.length := by
  intro s
  induction s with
  | nil =>
    intro k i h
    simp only [findSubFrom] at h
    split at h
    · cases h
      rename_i hp
      simp only [List.isEmpty_iff] at hp
      simp [hp]
    · cases h
  | cons c cs ih =>
    intro k i h
    simp only [findSubFrom] at h
    split at h
    · cases h
      rename_i hsw
      have := chStartsWith_length hsw
      simp only [List.length_cons] at *
      omega
    · have := ih h
      simp only [List.length_cons]
      omega

theorem findSub_bound {s pat : List Char} {i : Nat} (h : findSub s pat = some i) :
    i + pat.length ≤ s.length := by
  have := findSubFrom_bound h
  omega

theorem ciStartsWith_of_chStartsWith : ∀ {s pat : List Char},
    chStartsWith s pat = true → ciStartsWith s pat = true := by
  intro s
  induction s with
  | nil => intro pat h; cases pat with
    | nil => rfl
    | cons p ps => simp [chStartsWith] at h
  | cons c cs ih => intro pat h; cases pat with
    | nil => rfl
    | cons p ps =>
      simp only [chStartsWith, Bool.and_eq_true, decide_eq_true_eq] at h
      simp only [ciStartsWith, Bool.and_eq_true]
      exact ⟨by simp [ciEqChar, h.1], ih h.2⟩

theorem ciContains_of_findSubFrom {pat : List Char} : ∀ {s : List Char} {k : Nat},
    (findSubFrom pat s k).isSome = true → ciContains s pat = true := by
  intro s
  induction s with
  | nil =>
    intro k h
    simp only [findSubFrom] at h
    split at h
    · rename_i hp
      simp [ciContains, hp]
    · simp at h
  | cons c cs ih =>
    intro k h
    simp only [findSubFrom] at h
    simp only [ciContains, Bool.or_eq_true]
    split at h
    · rename_i hsw
      exact Or.inl (ciStartsWith_of_chStartsWith hsw)
    · exact Or.inr (ih h)

theorem ciContains_of_containsSub {s pat : List Char} (h : containsSub s pat = true) :
    ciContains s pat = true :=
  ciContains_of_findSubFrom h

/-! ## Supporting lemmas: association lists and the resolver -/

theorem assocLookup_map_snd {α β : Type} (g : α → β) (fs : List (String × α)) (k : String) :
    assocLookup (fs.map fun f => (f.1, g f.2)) k = (assocLookup fs k).map g := by
  induction fs with
  | nil => rfl
  | cons f rest ih =>
    by_cases h : f.1 = k <;> simp [assocLookup, h, ih]

theorem mapBack_str (m : List (String × String)) (s : String) :
    mapBack m (.str s) = .str (resolveStr m s) := by
  rw [mapBack, resolveStr]
  cases assocLookup m s <;> rfl

theorem mapBack_arr (m : List (String × String)) (xs : List Json) :
    mapBack m (.arr xs) = .arr (xs.map (mapBack m)) := by
  rw [mapBack]
  simp [List.attach_map_val]

theorem mapBack_obj (m : List (String × String)) (fs : List (String × Json)) :
    mapBack m (.obj fs) = .obj (fs.map fun f => (f.1, mapBack m f.2)) := by
  rw [mapBack]
  congr 1
  exact List.attach_map_val fs fun f => (f.1, mapBack m f.2)

theorem get?_mapBack (m : List (String × String)) :
    ∀ (p : List Step) (j : Json), (mapBack m j).get? p = (j.get? p).map (mapBack m) := by
  intro p
  induction p with
  | nil => intro j; simp [Json.get?]
  | cons step p ih =>
    intro j
    cases j with
    | null => rw [mapBack]; cases step <;> rfl
    | bool b => rw [mapBack]; cases step <;> rfl
    | num a e => rw [mapBack]; cases step <;> rfl
    | str s => rw [mapBack_str]; cases step <;> rfl
    | arr xs =>
      rw [mapBack_arr]
      cases step with
      | idx i =>
        show (match (xs.map (mapBack m))[i]? with
          | some x => x.get? p
          | none => none) =
          Option.map (mapBack m) (match xs[i]? with
            | some x => x.get? p
            | none => none)
        rw [List.getElem?_map]
        cases h : xs[i]? with
        | none => rfl
        | some x => simp [ih x]
      | key k => rfl
    | obj fs =>
      rw [mapBack_obj]
      cases step with
      | idx i => rfl
      | key k =>
        show (match assocLookup (fs.map fun f => (f.1, mapBack m f.2)) k with
          | some v => v.get? p
          | none => none) =
          Option.map (mapBack m) (match assocLookup fs k with
            | some v => v.get? p
            | none => none)
        rw [assocLookup_map_snd]
        cases h : assocLookup fs k with
        | none => rfl
        | some v => simp [ih v]

theorem nodeKind_mapBack (m : List (String × String)) (j : Json) :
    (mapBack m j).nodeKind = j.nodeKind := by
  cases j with
  | str s => rw [mapBack_str]; rfl
  | arr xs => rw [mapBack_arr]; simp [Json.nodeKind]
  | obj fs => rw [mapBack_obj]; simp [Json.nodeKind]
  | null => rw [mapBack]
  | bool b => rw [mapBack]
  | num a e => rw [mapBack]

theorem mapBack_scalar (m : List (String × String)) (v : Json)
    (h : v.scalarNonString = true) : mapBack m v = v := by
  cases v with
  | null => rw [mapBack]
  | bool b => rw [mapBack]
  | num a e => rw [mapBack]
  | str s => simp [Json.scalarNonString] at h
  | arr xs => simp [Json.scalarNonString] at h
  | obj fs => simp [Json.scalarNonString] at h

/-! ## Supporting lemmas: the placeholder table -/

theorem mem_keys_buildUrlMapAux : ∀ {els : List ImgEl} {c : Nat} {k : String},
    k ∈ (buildUrlMapAux c els).map Prod.fst → ∃ n, c ≤ n ∧ k = "I" ++ natDec n := by
  intro els
  induction els with
  | nil => intro c k h; simp [buildUrlMapAux] at h
  | cons el rest ih =>
    intro c k h
    cases hsrc : imgSrcOf el with
    | some s =>
      rw [buildUrlMapAux, hsrc] at h
      simp only [List.map_cons, List.mem_cons] at h
      rcases h with h | h
      · exact ⟨c, Nat.le_refl c, h⟩
      · obtain ⟨n, hn, hk⟩ := ih h
        exact ⟨n, by omega, hk⟩
    | none =>
      rw [buildUrlMapAux, hsrc] at h
      obtain ⟨n, hn, hk⟩ := ih h
      exact ⟨n, by omega, hk⟩

theorem tokens_nodup_aux : ∀ (els : List ImgEl) (c : Nat),
    ((buildUrlMapAux c els).map Prod.fst).Nodup := by
  intro els
  induction els with
  | nil => intro c; simp [buildUrlMapAux]
  | cons el rest ih =>
    intro c
    cases hsrc : imgSrcOf el with
    | some s =>
      rw [buildUrlMapAux, hsrc]
      simp only [List.map_cons]
      refine List.nodup_cons.mpr ⟨?_, ih (c + 1)⟩
      intro hmem
      obtain ⟨n, hn, hk⟩ := mem_keys_buildUrlMapAux hmem
      have := token_injective hk
      omega
    | none =>
      rw [buildUrlMapAux, hsrc]
      exact ih c

theorem buildUrlMapAux_lookup : ∀ (els : List ImgEl) (c k : Nat) (s : String),
    (els.filterMap imgSrcOf)[k]? = some s →
    assocLookup (buildUrlMapAux c els) ("I" ++ natDec (c + k)) =
      some ("/image/" ++ stripScheme s) := by
  intro els
  induction els with
  | nil => intro c k s h; simp at h
  | cons el rest ih =>
    intro c k s h
    cases hsrc : imgSrcOf el with
    | some s0 =>
      rw [buildUrlMapAux, hsrc]
      rw [List.filterMap_cons, hsrc] at h
      cases k with
      | zero =>
        simp only [List.getElem?_cons_zero, Option.some.injEq] at h
        subst h
        simp [assocLookup]
      | succ k' =>
        simp only [List.getElem?_cons_succ] at h
        rw [assocLookup]
        have hne : ("I" ++ natDec c = "I" ++ natDec (c + (k' + 1))) = False := by
          simp only [eq_iff_iff, iff_false]
          intro hEq
          have := token_injective hEq
          omega
        simp only [hne, if_false]
        have := ih (c + 1) k' s h
        rw [show c + 1 + k' = c + (k' + 1) by omega] at this
        exact this
    | none =>
      rw [buildUrlMapAux, hsrc]
      rw [List.filterMap_cons, hsrc] at h
      exact ih c k s h

/-! ## Supporting lemmas: response headers -/

theorem headerNameEq_refl (a : String) : headerNameEq a a = true := by
  simp [headerNameEq]

theorem headersGet_replace (hs : List (String × String)) (n v : String)
    (h : headersHas hs n = true) :
    headersGet (hs.map fun x => if headerNameEq x.1 n then (x.1, v) else x) n = some v := by
  induction hs with
  | nil => simp [headersHas] at h
  | cons p rest ih =>
    by_cases hp : headerNameEq p.1 n = true
    · simp [headersGet, List.find?, hp]
    · have hp' : headerNameEq p.1 n = false := by simpa using hp
      have h' : headersHas rest n = true := by
        simpa [headersHas, hp'] using h
      simpa [headersGet, List.find?, hp'] using ih h'

theorem headersGet_append_self (hs : List (String × String)) (n v : String)
    (h : headersHas hs n = false) :
    headersGet (hs ++ [(n, v)]) n = some v := by
  induction hs with
  | nil => simp [headersGet, List.find?, headerNameEq_refl]
  | cons p rest ih =>
    have hp : headerNameEq p.1 n = false := by
      by_contra hc
      simp only [Bool.not_eq_false] at hc
      simp [headersHas, hc] at h
    have h' : headersHas rest n = false := by
      simpa [headersHas, hp] using h
    simpa [headersGet, List.find?, hp] using ih h'

theorem headersGet_set (hs : List (String × String)) (n v : String) :
    headersGet (headersSet hs n v) n = some v := by
  unfold headersSet
  by_cases h : headersHas hs n = true
  · simp only [h, if_true]
    exact headersGet_replace hs n v h
  · have h' : headersHas hs n = false := by simpa using h
    simp only [h', Bool.false_eq_true, if_false]
    exact headersGet_append_self hs n v h'

theorem headersHas_delete (hs : List (String × String)) (n : String) :
    headersHas (headersDelete hs n) n = false := by
  induction hs with
  | nil => rfl
  | cons p rest ih =>
    by_cases hp : headerNameEq p.1 n = true
    · simp only [headersDelete, List.filter_cons, hp, Bool.not_true]
      exact ih
    · have hp' : headerNameEq p.1 n = false := by simpa using hp
      simp only [headersDelete, headersHas] at ih ⊢
      simp [List.filter_cons, hp', ih]

theorem headerNameEq_symm_trans {a b c : String} (hab : headerNameEq a b = true)
    (hcb : headerNameEq c b = false) : headerNameEq a c = false := by
  simp only [headerNameEq, decide_eq_true_eq, decide_eq_false_iff_not] at *
  rw [hab]
  intro hEq
  exact hcb hEq.symm

theorem headersGet_delete_ne (hs : List (String × String)) (n n' : String)
    (h : headerNameEq n' n = false) :
    headersGet (headersDelete hs n) n' = headersGet hs n' := by
  induction hs with
  | nil => rfl
  | cons p rest ih =>
    by_cases hp : headerNameEq p.1 n = true
    · have hp' : headerNameEq p.1 n' = false := by
        by_contra hc
        simp only [Bool.not_eq_false] at hc
        simp only [headerNameEq, decide_eq_true_eq, decide_eq_false_iff_not] at hp hc h
        exact h (hc.symm.trans hp)
      simpa [headersDelete, headersGet, List.find?, hp, hp'] using ih
    · have hp0 : headerNameEq p.1 n = false := by simpa using hp
      by_cases hq : headerNameEq p.1 n' = true
      · simp [headersDelete, headersGet, List.find?, hp0, hq]
      · have hq' : headerNameEq p.1 n' = false := by simpa using hq
        simpa [headersDelete, headersGet, List.find?, hp0, hq'] using ih

/-! ## Supporting lemmas: the RSS loop -/

theorem parseRSSLoop_epochtimes (dateMs : String → Nat) (src : Source)
    (hd : src.domain = "feed.epochtimes.com") : ∀ items : List (List Char),
    parseRSSLoop dateMs src items =
      (items.filter fun it => !shenYunTest it).map (mkNewsItem dateMs src) := by
  intro items
  induction items with
  | nil => rfl
  | cons it rest ih =>
    by_cases h : shenYunTest it = true
    · simp [parseRSSLoop, hd, h, List.filter_cons, ih]
    · simp [parseRSSLoop, hd, h, List.filter_cons, ih]

theorem parseRSSLoop_other (dateMs : String → Nat) (src : Source)
    (hd : ¬src.domain = "feed.epochtimes.com") : ∀ items : List (List Char),
    parseRSSLoop dateMs src items = items.map (mkNewsItem dateMs src) := by
  intro items
  induction items with
  | nil => rfl
  | cons it rest ih => simp [parseRSSLoop, hd, ih]

/-! ## Supporting lemmas: `indexOf` / `substring` -/

theorem jsIndexOf_eq_nat {l : List Char} {c : Char} {i : Nat}
    (h : jsIndexOf l c = (i : Int)) : findSub l [c] = some i ∧ i + 1 ≤ l.length := by
  unfold jsIndexOf at h
  cases hf : findSub l [c] with
  | none =>
    rw [hf] at h
    have h' : (-1 : Int) = (i : Int) := h
    omega
  | some n =>
    rw [hf] at h
    have h' : ((n : Nat) : Int) = (i : Int) := h
    have hn : n = i := by omega
    subst hn
    refine ⟨rfl, ?_⟩
    have := findSub_bound hf
    simpa using this

theorem jsLastIndexOf_lt {l : List Char} {c : Char} {j : Nat}
    (h : jsLastIndexOf l c = (j : Int)) : j < l.length := by
  unfold jsLastIndexOf at h
  cases hf : findSub l.reverse [c] with
  | none =>
    rw [hf] at h
    have h' : (-1 : Int) = (j : Int) := h
    omega
  | some n =>
    rw [hf] at h
    have h' : ((l.length - 1 - n : Nat) : Int) = (j : Int) := h
    have hb := findSub_bound hf
    simp only [List.length_reverse, List.length_cons, List.length_nil] at hb
    omega

theorem jsIndexOf_of_not_contains {l : List Char} {c : Char}
    (h : containsSub l [c] = false) : jsIndexOf l c = -1 := by
  unfold jsIndexOf
  unfold containsSub at h
  cases hf : findSub l [c] with
  | none => rfl
  | some n => rw [hf] at h; simp at h

theorem jsSubstring_of_le {l : List Char} {i j : Nat} (hij : i ≤ j) (hj : j ≤ l.length) :
    jsSubstring l (i : Int) (j : Int) = (l.drop i).take (j - i) := by
  unfold jsSubstring
  have h1 : (max 0 (min (i : Int) ((l.length : Nat) : Int))).toNat = i := by omega
  have h2 : (max 0 (min (j : Int) ((l.length : Nat) : Int))).toNat = j := by omega
  simp only [h1, h2, Nat.min_eq_left hij, Nat.max_eq_right hij]

/-! ## Claim C1 -/

/-- Claim C1: with a successful upstream fetch, a durable-cache hit for
the canonical URL's key short-circuits the model client — `callAI` is
not invoked and no cache write is issued — but not re-extraction: the
upstream fetch still happens and the returned title, image and
paragraphs come from the fresh extraction (`env.page`), while
`summary_points` is exactly the cached entry. -/
theorem C1_durable_hit_skips_model (url : String) (env : Env) (cached : List String)
    (hok : env.fetchOk = true) (hhit : env.kv (kvKeyOf url) = some cached) :
    getArticleData url env =
      (.ok { title := cleanTitleOf env.page, paragraphs := env.page.paragraphs,
             image := imageOf env.page, summary_points := cached,
             debugPrompt := "", debugRaw := "" },
        { fetched := true, aiCalled := false, kvWrite := none }) := by
  simp [getArticleData, hok, hhit]

/-- Witness for C1: a concrete cache-hit environment. -/
theorem C1_witness :
    envHit.kv (kvKeyOf demoUrl) = some ["cached point one"] ∧
    getArticleData demoUrl envHit =
      (.ok { title := "Demo Title", paragraphs := ["first paragraph", "second paragraph"],
             image := "https://cdn.demo/og.png", summary_points := ["cached point one"],
             debugPrompt := "", debugRaw := "" },
        { fetched := true, aiCalled := false, kvWrite := none }) :=
  ⟨rfl, C1_durable_hit_skips_model demoUrl envHit ["cached point one"] rfl rfl⟩

/-! ## Claim C2 -/

/-- Claim C2, counterexample: the v10.7 list-schema repair does NOT map
the spec's example to `["first point", "second point", "third"]` — the
stripped line `third` has exactly 5 characters, and the filter keeps
only lines of length strictly greater than 5, so `third` is dropped. -/
theorem C2_counterexample :
    listRepair listExample ≠ ["first point", "second point", "third"] := by decide

/-- Claim C2, amended: on the example text the repair returns exactly
`["first point", "second point"]` (both the 5-character `third` and the
5-character `short` fall to the strict `length > 5` filter); the repair
is total — for every raw input it returns a (possibly empty) sequence
without raising, and every retained line has more than 5 characters. -/
theorem C2_list_repair (raw : String) :
    listRepair listExample = ["first point", "second point"] ∧
    ∀ l ∈ listRepair raw, 5 < l.length := by
  refine ⟨by decide, ?_⟩
  intro l hl
  simp only [listRepair, List.mem_map, List.mem_filter] at hl
  obtain ⟨l', ⟨_, hlen⟩, rfl⟩ := hl
  exact of_decide_eq_true hlen

/-- Witness for C2 at concrete inputs. -/
theorem C2_witness :
    listRepair listExample = ["first point", "second point"] ∧
    5 < ("first point" : String).length :=
  ⟨(C2_list_repair "").1, (C2_list_repair listExample).2 "first point" (by decide)⟩

/-! ## Claim C3 -/

/-- Claim C3, counterexample: the object-schema repair does NOT fail on
every brace-free text — on `"123"` `cleanJson` returns the text
unchanged and `JSON.parse` succeeds (a bare JSON scalar), so no parse
error is raised. -/
theorem C3_counterexample :
    containsSub ("123".toList) ['\x7b'] = false ∧
    containsSub ("123".toList) ['\x7d'] = false ∧
    exceptOk (jsonParse (cleanJson_v43 "123")) = true ∧
    exceptOk (jsonParse (cleanJson_v52 "123")) = true := by decide

/-- Claim C3, amended: on the spec's example the repair slices from the
first `\x7b` to the last `\x7d` inclusive and parses it to the expected
object; in general, whenever both braces occur (in order) the candidate
is exactly that inclusive slice (trimmed); when the text contains no
braces the candidate is the whole trimmed text, which fails to parse
for prose but succeeds when the text is itself valid JSON (e.g. a bare
number), so "no braces" does not always produce a parse error. -/
theorem C3_object_repair :
    (cleanJson_v43 objExample = "\x7b\"summary\":[\"a\",\"b\"]\x7d" ∧
      jsonParse (cleanJson_v43 objExample) =
        .ok (.obj [("summary", .arr [.str "a", .str "b"])]) ∧
      jsonParse (cleanJson_v52 objExample) =
        .ok (.obj [("summary", .arr [.str "a", .str "b"])])) ∧
    (∀ (t : String) (i j : Nat),
      jsIndexOf t.toList '\x7b' = (i : Int) → jsLastIndexOf t.toList '\x7d' = (j : Int) →
      i ≤ j →
      cleanJson_v43 t = (jsTrim ((t.toList.drop i).take (j + 1 - i))).asString) ∧
    (∀ t : String, containsSub t.toList ['\x7b'] = false →
      cleanJson_v43 t = (jsTrim t.toList).asString) ∧
    (exceptOk (jsonParse (cleanJson_v43 "it failed")) = false ∧
      exceptOk (jsonParse (cleanJson_v43 "123")) = true) := by
  refine ⟨⟨rfl, rfl, rfl⟩, ?_, ?_, ⟨rfl, rfl⟩⟩
  · intro t i j hi hj hij
    obtain ⟨hfind, hlen⟩ := jsIndexOf_eq_nat hi
    have hjlt := jsLastIndexOf_lt hj
    simp only [cleanJson_v43, hi, hj]
    have hcond : ((i : Int) ≠ -1 ∧ (j : Int) ≠ -1) := by
      constructor <;> omega
    rw [if_pos hcond]
    have hcast : ((j : Int) + 1) = ((j + 1 : Nat) : Int) := by push_cast; ring
    rw [hcast, jsSubstring_of_le (by omega) (by omega)]
  · intro t h
    simp only [cleanJson_v43, jsIndexOf_of_not_contains h]
    have hcond : ¬((-1 : Int) ≠ -1 ∧ jsLastIndexOf t.toList '\x7d' ≠ -1) := by
      intro hc
      exact hc.1 rfl
    rw [if_neg hcond]

/-- Witness for C3 at a concrete sliced input. -/
theorem C3_witness :
    jsIndexOf ("a\x7bb\x7dc".toList) '\x7b' = (1 : Nat) ∧
    jsLastIndexOf ("a\x7bb\x7dc".toList) '\x7d' = (3 : Nat) ∧
    cleanJson_v43 "a\x7bb\x7dc" =
      (jsTrim ((("a\x7bb\x7dc".toList).drop 1).take (3 + 1 - 1))).asString :=
  ⟨by decide, by decide,
    C3_object_repair.2.1 "a\x7bb\x7dc" 1 3 (by decide) (by decide) (by omega)⟩

/-! ## Claim C4 -/

/-- Claim C4: the placeholder table of one extraction pass has pairwise
distinct tokens, and its `k`-th recorded source (0-based) is reachable
under token `I(k+1)` as exactly the proxy-rewritten URL recorded at
emission time; the resolver returns a structurally identical tree
(same `nodeKind` at every path), resolves every string scalar (tokens
to their recorded URL, non-matching strings to themselves), and passes
every non-string scalar through unchanged — so resolving the extracted
structure restores exactly the recorded URLs. -/
theorem C4_resolver_roundtrip :
    (∀ els : List ImgEl, ((buildUrlMap els).map Prod.fst).Nodup) ∧
    (∀ (els : List ImgEl) (k : Nat) (s : String),
      (els.filterMap imgSrcOf)[k]? = some s →
      assocLookup (buildUrlMap els) ("I" ++ natDec (k + 1)) =
        some ("/image/" ++ stripScheme s)) ∧
    (∀ (m : List (String × String)) (j : Json) (p : List Step),
      ((mapBack m j).get? p).map Json.nodeKind = (j.get? p).map Json.nodeKind) ∧
    (∀ (m : List (String × String)) (j : Json) (p : List Step) (s : String),
      j.get? p = some (.str s) →
      (mapBack m j).get? p = some (.str (resolveStr m s))) ∧
    (∀ (m : List (String × String)) (j : Json) (p : List Step) (v : Json),
      j.get? p = some v → v.scalarNonString = true →
      (mapBack m j).get? p = some v) := by
  refine ⟨fun els => tokens_nodup_aux els 1, ?_, ?_, ?_, ?_⟩
  · intro els k s h
    have := buildUrlMapAux_lookup els 1 k s h
    rw [show 1 + k = k + 1 by omega] at this
    exact this
  · intro m j p
    rw [get?_mapBack]
    cases h : j.get? p with
    | none => rfl
    | some v => simp [nodeKind_mapBack]
  · intro m j p s h
    rw [get?_mapBack, h]
    simp [mapBack_str]
  · intro m j p v h hv
    rw [get?_mapBack, h]
    simp [mapBack_scalar m v hv]

/-- Witness for C4: a concrete extraction pass and model output. -/
theorem C4_witness :
    ((buildUrlMap demoEls).map Prod.fst).Nodup ∧
    assocLookup (buildUrlMap demoEls) ("I" ++ natDec 1) = some "/image/pic.demo/1.png" ∧
    (mapBack (buildUrlMap demoEls) demoJson).get? [Step.key "image_url"] =
      some (.str (resolveStr (buildUrlMap demoEls) "I1")) ∧
    (mapBack (buildUrlMap demoEls) demoJson).get? [Step.key "n"] = some (.num 3 0) :=
  ⟨C4_resolver_roundtrip.1 demoEls,
    C4_resolver_roundtrip.2.1 demoEls 0 "https://pic.demo/1.png" rfl,
    C4_resolver_roundtrip.2.2.2.1 (buildUrlMap demoEls) demoJson [Step.key "image_url"] "I1" rfl,
    C4_resolver_roundtrip.2.2.2.2 (buildUrlMap demoEls) demoJson [Step.key "n"] (.num 3 0) rfl rfl⟩

/-! ## Claim C5 -/

/-- Claim C5: on the model path (successful fetch, durable-cache miss,
model responded), the durable cache is written exactly when the
repaired summary is non-empty, and then under the key derived from the
canonical source URL, with the repaired array and the 14-day TTL;
an empty repaired summary issues no write (so a later request will
retry the model call). -/
theorem C5_durable_write_iff_nonempty (url : String) (env : Env) (raw : String)
    (hok : env.fetchOk = true) (hmiss : env.kv (kvKeyOf url) = none)
    (hai : env.ai (buildPrompt (cleanTitleOf env.page) env.page.paragraphs) = .ok raw) :
    (listRepair raw = [] → (getArticleData url env).2.kvWrite = none) ∧
    (listRepair raw ≠ [] →
      (getArticleData url env).2.kvWrite = some (kvKeyOf url, listRepair raw, 1209600)) := by
  constructor
  · intro hrep
    simp [getArticleData, hok, hmiss, hai, hrep]
  · intro hrep
    have hlen : 0 < (listRepair raw).length := List.length_pos.mpr hrep
    simp [getArticleData, hok, hmiss, hai, hlen]

/-- Witness for C5: a model answer with two valid lines is cached, one
with only degenerate lines is not. -/
theorem C5_witness :
    (getArticleData demoUrl envMiss).2.kvWrite =
      some (kvKeyOf demoUrl, ["alpha point one", "beta point two"], 1209600) ∧
    (getArticleData demoUrl envShort).2.kvWrite = none :=
  ⟨(C5_durable_write_iff_nonempty demoUrl envMiss "- alpha point one\n* beta point two"
      rfl rfl rfl).2 (by decide),
    (C5_durable_write_iff_nonempty demoUrl envShort "- ok\n* no" rfl rfl rfl).1 (by decide)⟩

/-! ## Claim C6 -/

/-- Claim C6: one failed source contributes the empty sequence, the
aggregate over the remaining sources is exactly the aggregate without
the failed source (no error propagates — failure is absorbed into an
empty contribution by construction of the per-source `try`/`catch`),
and the aggregate is sorted by descending timestamp. -/
theorem C6_feed_isolation (dateMs : String → Nat)
    (pre post : List (Source × Option String)) (src : Source) :
    handleUnifiedFeedNews dateMs (pre ++ (src, none) :: post) =
      handleUnifiedFeedNews dateMs (pre ++ post) ∧
    feedContribution dateMs (src, none) = [] ∧
    (handleUnifiedFeedNews dateMs (pre ++ (src, none) :: post)).Pairwise
      (fun a b => b.timestamp ≤ a.timestamp) := by
  refine ⟨?_, rfl, ?_⟩
  · unfold handleUnifiedFeedNews
    congr 1
    simp [feedContribution]
  · unfold handleUnifiedFeedNews
    have htrans : ∀ a b c : NewsItem, tsLe a b → tsLe b c → tsLe a c := by
      intro a b c hab hbc
      simp only [tsLe, decide_eq_true_eq] at *
      omega
    have htotal : ∀ a b : NewsItem, tsLe a b || tsLe b a := by
      intro a b
      simp only [tsLe, Bool.or_eq_true, decide_eq_true_eq]
      omega
    have hs := List.sorted_mergeSort htrans htotal
      (((pre ++ (src, none) :: post).map (feedContribution dateMs)).flatten)
    exact hs.imp fun h => by simpa [tsLe] using h

/-! ## Claim C7 -/

/-- Claim C7, counterexample: an extraction that recovered zero
paragraphs does NOT signal failure — with a successful fetch and a
cache miss, `_getArticleData` proceeds to invoke the model client on
the empty excerpt and returns successfully, contradicting the claim
that zero recovered paragraphs is a failure situation. -/
theorem C7_counterexample :
    envNoParas.page.paragraphs = [] ∧
    exceptOk (getArticleData demoUrl envNoParas).1 = true ∧
    (getArticleData demoUrl envNoParas).2.aiCalled = true :=
  ⟨rfl, rfl, rfl⟩

/-- Claim C7, amended: extraction signals failure upward in exactly ONE
situation — the upstream fetch returned a non-success status; zero
recovered paragraphs does not fail the pipeline (the prompt is built
from the empty excerpt and the model is still consulted), and absent
title/image fields degrade to the default title `"News Article"` and
to the fallback/empty image. -/
theorem C7_extraction_failure (url : String) (env : Env) :
    (env.fetchOk = false →
      (getArticleData url env).1 =
        .error (.jsError ("Fetch Exception: HTTP " ++ natDec env.fetchStatus))) ∧
    (env.fetchOk = true →
      ∀ cached, env.kv (kvKeyOf url) = some cached →
        exceptOk (getArticleData url env).1 = true) ∧
    (env.fetchOk = true → env.kv (kvKeyOf url) = none →
      ∀ raw, env.ai (buildPrompt (cleanTitleOf env.page) env.page.paragraphs) = .ok raw →
        exceptOk (getArticleData url env).1 = true) ∧
    (jsTrim env.page.pageTitle.toList = [] → cleanTitleOf env.page = "News Article") ∧
    (env.page.socialImg = "" → imageOf env.page = env.page.firstBodyImg) := by
  refine ⟨?_, ?_, ?_, ?_, ?_⟩
  · intro hbad
    simp [getArticleData, hbad]
  · intro hok cached hhit
    simp [getArticleData, hok, hhit, exceptOk]
  · intro hok hmiss raw hai
    simp [getArticleData, hok, hmiss, hai, exceptOk]
  · intro htrim
    have ht : jsTrim env.page.pageTitle.data = [] := htrim
    simp [cleanTitleOf, ht, List.asString]
  · intro himg
    simp [imageOf, himg]

/-- Witness for C7: the concrete failing fetch, the concrete
zero-paragraph success, and the degraded defaults. -/
theorem C7_witness :
    (getArticleData demoUrl envBadFetch).1 =
      .error (.jsError ("Fetch Exception: HTTP " ++ natDec 503)) ∧
    exceptOk (getArticleData demoUrl envNoParas).1 = true ∧
    cleanTitleOf emptyPage = "News Article" ∧
    imageOf emptyPage = "" :=
  ⟨(C7_extraction_failure demoUrl envBadFetch).1 rfl,
    (C7_extraction_failure demoUrl envNoParas).2.2.1 rfl rfl
      "- alpha point one\n* beta point two" rfl,
    (C7_extraction_failure demoUrl envNoParas).2.2.2.1 rfl,
    (C7_extraction_failure demoUrl envNoParas).2.2.2.2 rfl⟩

/-! ## Claim C8 -/

/-- Claim C8: a model-endpoint response with no usable candidate content
block (absent, `null`, or empty candidate list) makes the model client
raise a failure — in v4.3 via the explicit `AI_BLOCK` guard, in v10.7
via the `TypeError` of the unguarded property chain — that is distinct
from a parse failure (`JSON.parse`'s `SyntaxError` kind), and any such
model-client failure on the v10.7 article path surfaces as the failure
reporter's diagnostic page carrying the error message (with the
prompt/raw context showing their absence). -/
theorem C8_model_rejection (resp : Json) (h : noUsableCandidates resp) :
    (∃ e, callAI_v107 resp = .error e ∧ e.isParse = false) ∧
    (∃ e, callAI_v43 resp = .error e ∧ e.isParse = false) ∧
    (∀ (url : String) (env : Env) (e : JsError),
      env.fetchOk = true → env.kv (kvKeyOf url) = none →
      env.ai = (fun _ => .error e) →
      handleArticle url env =
        (.debugPage e.message "" "", { fetched := true, aiCalled := true, kvWrite := none })) := by
  refine ⟨?_, ?_, ?_⟩
  · cases resp with
    | obj fs =>
      unfold noUsableCandidates at h
      rcases h with hc | hc | hc
      · simp only [callAI_v107, jsGetProp, jsIndex, hc]
        exact ⟨_, rfl, rfl⟩
      · simp only [callAI_v107, jsGetProp, jsIndex, hc]
        exact ⟨_, rfl, rfl⟩
      · simp only [callAI_v107, jsGetProp, jsIndex, hc, List.getElem?_nil]
        exact ⟨_, rfl, rfl⟩
    | null => exact ⟨_, rfl, rfl⟩
    | bool b => exact ⟨_, rfl, rfl⟩
    | num m e => exact ⟨_, rfl, rfl⟩
    | str s => exact ⟨_, rfl, rfl⟩
    | arr xs => exact ⟨_, rfl, rfl⟩
  · cases resp with
    | obj fs =>
      unfold noUsableCandidates at h
      rcases h with hc | hc | hc
      · simp only [callAI_v43, jsGetProp, jsIndex, jsFalsy, hc]
        exact ⟨_, rfl, rfl⟩
      · simp only [callAI_v43, jsGetProp, jsIndex, jsFalsy, hc]
        exact ⟨_, rfl, rfl⟩
      · simp only [callAI_v43, jsGetProp, jsIndex, jsFalsy, hc, List.getElem?_nil]
        exact ⟨_, rfl, rfl⟩
    | null => exact ⟨_, rfl, rfl⟩
    | bool b => exact ⟨_, rfl, rfl⟩
    | num m e => exact ⟨_, rfl, rfl⟩
    | str s => exact ⟨_, rfl, rfl⟩
    | arr xs => exact ⟨_, rfl, rfl⟩
  · intro url env e hok hmiss hai
    simp [handleArticle, getArticleData, hok, hmiss, hai]

/-- Witness for C8: the concrete empty-candidate-list response. -/
theorem C8_witness :
    noUsableCandidates respNoCand ∧
    (∃ e, callAI_v107 respNoCand = .error e ∧ e.isParse = false) ∧
    (∃ e, callAI_v43 respNoCand = .error e ∧ e.isParse = false) :=
  have hn : noUsableCandidates respNoCand := Or.inr (Or.inr rfl)
  ⟨hn, (C8_model_rejection respNoCand hn).1, (C8_model_rejection respNoCand hn).2.1⟩

/-! ## Claim C9 -/

/-- Claim C9, counterexample: in worker.js v10.7 the image proxy does
NOT strip `Set-Cookie` — a status-200 upstream response that carries a
cookie is proxied with the cookie still present (the `Set-Cookie`
deletion exists only in the earlier v5.2.2/v4.3 revisions). -/
theorem C9_counterexample :
    demoUpstream.status = 200 ∧
    headersHas (handleImageProxy_v107 (.ok demoUpstream)).headers "Set-Cookie" = true := by
  decide

/-- Claim C9, amended: on a status-200 upstream fetch the proxied
response carries the long-lived immutable cache directive (both
revisions); the `Set-Cookie` header is absent in v5.2.2 but is NOT
stripped by v10.7; a failing upstream fetch yields a bare 404 response
with no headers (hence no cache directive) in both revisions. -/
theorem C9_image_proxy (r : UpstreamResponse) (h200 : r.status = 200) :
    (headersGet (handleImageProxy_v52 (.ok r)).headers "Cache-Control" =
        some "public, max-age=31536000, immutable" ∧
      headersHas (handleImageProxy_v52 (.ok r)).headers "Set-Cookie" = false ∧
      headersGet (handleImageProxy_v107 (.ok r)).headers "Cache-Control" =
        some "public, max-age=31536000, immutable") ∧
    handleImageProxy_v107 (.error ()) = { status := 404, headers := [], hasBody := false } ∧
    handleImageProxy_v52 (.error ()) = { status := 404, headers := [], hasBody := false } := by
  refine ⟨⟨?_, ?_, ?_⟩, rfl, rfl⟩
  · simp only [handleImageProxy_v52, h200, if_pos]
    rw [headersGet_delete_ne _ _ _ (by decide)]
    exact headersGet_set _ _ _
  · simp only [handleImageProxy_v52, h200, if_pos]
    exact headersHas_delete _ _
  · simp only [handleImageProxy_v107, h200, if_pos]
    exact headersGet_set _ _ _

/-- Witness for C9 at a concrete upstream response. -/
theorem C9_witness :
    headersGet (handleImageProxy_v52 (.ok demoUpstream)).headers "Cache-Control" =
      some "public, max-age=31536000, immutable" ∧
    headersHas (handleImageProxy_v52 (.ok demoUpstream)).headers "Set-Cookie" = false :=
  ⟨(C9_image_proxy demoUpstream rfl).1.1, (C9_image_proxy demoUpstream rfl).1.2.1⟩

/-! ## Claim C10 -/

/-- Claim C10: in the v10.7 feed parser, the 大纪元 source
(`feed.epochtimes.com`) is the only one whose items are filtered by
category — its returned list is exactly the non-神韵 items mapped
through the item constructor, every other source maps ALL its items —
and any item markup containing a `<category>` element equal to 神韵,
with or without a CDATA wrapper, tests positive and is therefore
excluded. -/
theorem C10_epochtimes_filter (dateMs : String → Nat) (xml : String) (src : Source) :
    (src.domain = "feed.epochtimes.com" →
      parseRSS dateMs xml src =
        ((itemsOf xml.toList).filter fun it => !shenYunTest it).map
          (mkNewsItem dateMs src)) ∧
    (src.domain ≠ "feed.epochtimes.com" →
      parseRSS dateMs xml src = (itemsOf xml.toList).map (mkNewsItem dateMs src)) ∧
    (∀ it : List Char,
      (containsSub it ("<category>神韵</category>".toList) = true ∨
        containsSub it ("<category><![CDATA[神韵]]></category>".toList) = true) →
      shenYunTest it = true) := by
  refine ⟨?_, ?_, ?_⟩
  · intro hd
    exact parseRSSLoop_epochtimes dateMs src hd (itemsOf xml.toList)
  · intro hd
    exact parseRSSLoop_other dateMs src hd (itemsOf xml.toList)
  · intro it h
    rcases h with h | h
    · have := ciContains_of_containsSub h
      simp [shenYunTest, shenYunVariants]
      exact Or.inl this
    · have := ciContains_of_containsSub h
      simp [shenYunTest, shenYunVariants]
      exact Or.inr (Or.inr (Or.inr this))

set_option maxRecDepth 16384 in
/-- Witness for C10: the concrete demonstration feed — the
神韵-categorised item is excluded, the ordinary item is kept, and other
sources keep both items. -/
theorem C10_witness :
    parseRSS demoDateMs demoXml epochSource =
      ((itemsOf demoXml.toList).filter fun it => !shenYunTest it).map
        (mkNewsItem demoDateMs epochSource) ∧
    parseRSS demoDateMs demoXml bbcSource =
      (itemsOf demoXml.toList).map (mkNewsItem demoDateMs bbcSource) ∧
    shenYunTest ("<category><![CDATA[神韵]]></category>".toList) = true ∧
    (parseRSS demoDateMs demoXml epochSource).length = 1 ∧
    (parseRSS demoDateMs demoXml bbcSource).length = 2 :=
  ⟨(C10_epochtimes_filter demoDateMs demoXml epochSource).1 rfl,
    (C10_epochtimes_filter demoDateMs demoXml bbcSource).2.1 (by decide),
    (C10_epochtimes_filter demoDateMs demoXml epochSource).2.2
      ("<category><![CDATA[神韵]]></category>".toList) (Or.inr (by decide)),
    by decide, by decide⟩

end SmartNews
